import Mathlib

/-!
Verification development for the Ricoh job-log collector
(`complete_script_z.py`).  The core pipeline is shallowly embedded:

* `parse_and_clean_ricoh_log` — text → list of cleaned event records,
  mirroring the Python function of the same name (marker search,
  footer/blank filtering, quote-aware CSV reading, multi-row event
  reassembly, header renaming to the canonical field set);
* `process_and_insert_logs_via_staging` — differential merge of a batch
  into a persistent store through a staging table, with an explicit
  failure-injection parameter modelling exceptions inside the
  transaction (rollback + guaranteed staging cleanup);
* `compute_sha1` / `is_duplicate` — content-digest duplicate scan over a
  directory, with the cryptographic hash abstracted as a function
  parameter (block streaming of the whole file = hashing the whole
  content).

Machine text is modelled as Lean `String` (a wrapper around `List Char`)
and all primitive text operations used by the Python code (`strip`,
`lower`, `replace`, `startswith`, `in`, `splitlines`) are defined here
explicitly over the character list, so every definition is executable by
the kernel.
-/

set_option autoImplicit false

namespace RicohLog

/-! ## Text primitives (Python `str` operations) -/

/-- Python `str.strip()`: remove leading and trailing whitespace. -/
def pyStrip (s : String) : String :=
  ⟨((s.data.dropWhile Char.isWhitespace).reverse.dropWhile Char.isWhitespace).reverse⟩

/-- Python `str.lower()` (ASCII case folding, which is all the script needs). -/
def pyLower (s : String) : String :=
  ⟨s.data.map Char.toLower⟩

/-- Python `str.replace('"', '')`: delete every double-quote character. -/
def stripQuotes (s : String) : String :=
  ⟨s.data.filter (fun c => c ≠ '"')⟩

/-- Python `str.replace(c, d)` for single characters (used as `replace('-', '_')`). -/
def chReplace (c d : Char) (s : String) : String :=
  ⟨s.data.map (fun x => if x = c then d else x)⟩

/-- Python `str.startswith(pat)` on character lists. -/
def listPrefixTest : List Char → List Char → Bool
  | [], _ => true
  | _ :: _, [] => false
  | a :: as, b :: bs => a == b && listPrefixTest as bs

/-- Python `pat in s` (substring containment) on character lists. -/
def listInfixTest (needle : List Char) : List Char → Bool
  | [] => listPrefixTest needle []
  | c :: cs => listPrefixTest needle (c :: cs) || listInfixTest needle cs

/-- Split a character list at a separator character. -/
def splitCharAux (sep : Char) : List Char → List Char → List String
  | [], acc => [⟨acc.reverse⟩]
  | c :: cs, acc =>
    if c = sep then ⟨acc.reverse⟩ :: splitCharAux sep cs []
    else splitCharAux sep cs (c :: acc)

/-- Python `f.readlines()` followed by per-line processing: the file text
split into lines.  Line terminators are dropped; every use in the script
strips each line anyway, so this is behaviour-preserving. -/
def splitLines (s : String) : List String :=
  splitCharAux '\n' s.data []

/-- Python `'\n'.join(lines)`. -/
def joinLines : List String → String
  | [] => ""
  | [l] => l
  | l :: ls => l ++ "\n" ++ joinLines ls

/-! ## The CSV reader (`csv.reader` over the joined cleaned lines)

A quote-aware automaton over the character stream: `,` separates fields,
`\n` separates rows, a `"` opening an empty field starts a quoted field
(inside which `""` is a literal quote and `,`/`\n` are ordinary
characters).  An empty physical line yields an empty row, and an empty
input yields no rows, exactly as Python's `csv.reader` does. -/

def csvAux : List Char → Bool → Bool → String → List String → List (List String) →
    List (List String)
  | [], _, started, field, row, rows =>
    if started ∨ row ≠ [] then rows ++ [row ++ [field]] else rows
  | '"' :: '"' :: cs, true, started, field, row, rows =>
    csvAux cs true started (field.push '"') row rows
  | '"' :: cs, true, started, field, row, rows =>
    csvAux cs false started field row rows
  | c :: cs, true, started, field, row, rows =>
    csvAux cs true started (field.push c) row rows
  | c :: cs, false, started, field, row, rows =>
    if c = ',' then csvAux cs false true "" (row ++ [field]) rows
    else if c = '\n' then
      csvAux cs false false "" []
        (rows ++ [if started ∨ row ≠ [] then row ++ [field] else []])
    else if c = '"' ∧ field = "" then csvAux cs true true field row rows
    else csvAux cs false true (field.push c) row rows

/-- `csv.reader(StringIO(text))` as a list of rows of fields. -/
def csvParse (s : String) : List (List String) :=
  csvAux s.data false false "" [] []

/-! ## Event dictionaries (Python `dict`)

Events under assembly are Python dicts from header names to cell values.
They are modelled as association lists with in-place update, which has
exactly the `dict` lookup/update/insertion-order semantics for the
operations the script performs. -/

/-- An event under assembly: mapping from header column name to value. -/
abbrev Dict := List (String × String)

/-- Python `d.get(k)`: the value at `k`, or `none` when absent. -/
def Dict.get (d : Dict) (k : String) : Option String :=
  (d.find? (fun p => p.1 == k)).map Prod.snd

/-- Python `d[k] = v`: update the existing entry in place, else append. -/
def Dict.insert : Dict → String → String → Dict
  | [], k, v => [(k, v)]
  | p :: rest, k, v => if p.1 == k then (k, v) :: rest else p :: Dict.insert rest k v

/-- Python `dict(zip(header, row))`: pairs are truncated to the shorter
list and a duplicated header name keeps the last value. -/
def dictOfZip (header row : List String) : Dict :=
  (header.zip row).foldl (fun d p => d.insert p.1 p.2) []

/-! ## Event reassembly (the row loop of `parse_and_clean_ricoh_log`) -/

/-- `if len(row) > 1 and row[0]:` — the condition for a physical row to
start a new logical event. -/
def isStart (row : List String) : Bool :=
  decide (1 < row.length) && (row.getD 0 "" != "")

/-- The continuation branch:
`for i in range(min(len(header), len(row))):`
`  if row[i] and not current_event.get(header[i]): current_event[header[i]] = row[i]`. -/
def mergeContinuation (header : List String) (cur : Dict) (row : List String) : Dict :=
  (List.range (min header.length row.length)).foldl
    (fun d i =>
      if row.getD i "" ≠ "" ∧ (d.get (header.getD i "")).getD "" = "" then
        d.insert (header.getD i "") (row.getD i "")
      else d)
    cur

/-- One iteration of the `for row in reader:` loop.  The state is the
pair (flushed events, event currently being assembled); the empty dict
plays the role of Python's falsy `current_event = {}`. -/
def eventStep (header : List String) (acc : List Dict × Dict) (row : List String) :
    List Dict × Dict :=
  if isStart row then
    (acc.1 ++ (if acc.2 = [] then [] else [acc.2]), dictOfZip header row)
  else if acc.2 = [] then acc
  else (acc.1, mergeContinuation header acc.2 row)

/-- Flush the event still being assembled at end of input
(`if current_event: processed_events.append(current_event)`). -/
def finalizeEvents (acc : List Dict × Dict) : List Dict :=
  acc.1 ++ (if acc.2 = [] then [] else [acc.2])

/-- The whole reassembly loop over the data rows. -/
def assembleEvents (header : List String) (rows : List (List String)) : List Dict :=
  finalizeEvents (rows.foldl (eventStep header) ([], []))

/-! ## Cleaned records and the full parser -/

/-- One cleaned event record: the canonical column set of `df_cleaned`
(the values of `rename_map`) plus the attached printer tag.  `none` is a
null cell. -/
structure Row where
  LogID : Option String
  StartDateTime : Option String
  EndDateTime : Option String
  LogType : Option String
  Result : Option String
  OperationMethod : Option String
  Status : Option String
  CancelledDetails : Option String
  UserID : Option String
  HostIPAddress : Option String
  Source : Option String
  PrintFileName : Option String
  CreatedPages : Option String
  ExitPages : Option String
  ExitPapers : Option String
  PaperSize : Option String
  PaperType : Option String
  PrinterName : Option String
deriving DecidableEq

/-- The `rename_map` of the script: raw header name → canonical field
projection.  Note the single hard-coded trailing space in `"Status "`. -/
def renamePairs : List (String × (Row → Option String)) :=
  [("Log ID", Row.LogID), ("Start Date/Time", Row.StartDateTime),
   ("End Date/Time", Row.EndDateTime), ("Log Type", Row.LogType),
   ("Result", Row.Result), ("Operation Method", Row.OperationMethod),
   ("Status ", Row.Status), ("Cancelled: Details", Row.CancelledDetails),
   ("User ID", Row.UserID), ("Host IP Address", Row.HostIPAddress),
   ("Source", Row.Source), ("Print File Name", Row.PrintFileName),
   ("Created Pages", Row.CreatedPages), ("Exit Pages", Row.ExitPages),
   ("Exit Papers", Row.ExitPapers), ("Paper Size", Row.PaperSize),
   ("Paper Type", Row.PaperType)]

/-- Column selection and renaming: each canonical field reads the event's
value at the exact hard-coded raw header name (`df[list(rename_map.keys())]
.rename(...)`, with absent raw columns pre-filled with `None`), and
`PrinterName` is attached to every record. -/
def cleanEvent (printer_name : String) (e : Dict) : Row :=
  { LogID := e.get "Log ID"
  , StartDateTime := e.get "Start Date/Time"
  , EndDateTime := e.get "End Date/Time"
  , LogType := e.get "Log Type"
  , Result := e.get "Result"
  , OperationMethod := e.get "Operation Method"
  , Status := e.get "Status "
  , CancelledDetails := e.get "Cancelled: Details"
  , UserID := e.get "User ID"
  , HostIPAddress := e.get "Host IP Address"
  , Source := e.get "Source"
  , PrintFileName := e.get "Print File Name"
  , CreatedPages := e.get "Created Pages"
  , ExitPages := e.get "Exit Pages"
  , ExitPapers := e.get "Exit Papers"
  , PaperSize := e.get "Paper Size"
  , PaperType := e.get "Paper Type"
  , PrinterName := some printer_name }

/-- The header-marker search:
`next((i for i, line in enumerate(lines) if
line.strip().lower().replace('"', '').startswith('start date/time')), -1)`. -/
def markerIdx (lines : List String) : Option Nat :=
  lines.findIdx? (fun l =>
    listPrefixTest "start date/time".data (stripQuotes (pyLower (pyStrip l))).data)

/-- The cleaned CSV lines from the marker onward:
`[line.strip() for line in lines[i:] if line.strip() and
"download completed" not in line.lower()]`. -/
def csvLines (lines : List String) (i : Nat) : List String :=
  ((lines.drop i).filter (fun l =>
      pyStrip l ≠ "" ∧ listInfixTest "download completed".data (pyLower l).data = false)).map
    pyStrip

/-- `parse_and_clean_ricoh_log(file_path, printer_name, encoding)` with
the file contents passed directly as `text` (reading the file and the
encoding are I/O concerns outside the core).  Returns the list of
cleaned event records; the empty list is the empty `DataFrame`. -/
def parse_and_clean_ricoh_log (text : String) (printer_name : String) : List Row :=
  let lines := splitLines text
  match markerIdx lines with
  | none => []
  | some i =>
    match csvParse (joinLines (csvLines lines i)) with
    | [] => []
    | header :: rows => (assembleEvents header rows).map (cleanEvent printer_name)

/-! ## The differential merge (`process_and_insert_logs_via_staging`)

The pandas numeric/timestamp coercions (`pd.to_numeric(..., errors='coerce')`
and `pd.to_datetime(..., errors='coerce')`) are external library
behaviour; they are abstracted as function parameters `toNum` and
`toDT`, which send an unparseable cell to `none` (pandas `NaN`/`NaT`).
The store is the logical content of the main table plus this run's
staging table; the SQLAlchemy transaction is modelled by working on the
live state and restoring the pre-transaction state on rollback. -/

/-- A record after normalization: page counts coerced to nullable
integers, the two timestamps coerced to a nullable timestamp value. -/
structure NRow where
  LogID : Option String
  StartDateTime : Option Nat
  EndDateTime : Option Nat
  LogType : Option String
  Result : Option String
  OperationMethod : Option String
  Status : Option String
  CancelledDetails : Option String
  UserID : Option String
  HostIPAddress : Option String
  Source : Option String
  PrintFileName : Option String
  CreatedPages : Option Int
  ExitPages : Option Int
  ExitPapers : Option Int
  PaperSize : Option String
  PaperType : Option String
  PrinterName : Option String
deriving DecidableEq

/-- The per-column coercions of the merge:
`df[col] = pd.to_numeric(df[col], errors='coerce').astype('Int64')` for
the three page-count columns and
`df[col] = pd.to_datetime(df[col], errors='coerce')` for the two
timestamp columns; every other column passes through unchanged. -/
def normRow (toNum : String → Option Int) (toDT : String → Option Nat) (r : Row) : NRow :=
  { LogID := r.LogID
  , StartDateTime := r.StartDateTime.bind toDT
  , EndDateTime := r.EndDateTime.bind toDT
  , LogType := r.LogType
  , Result := r.Result
  , OperationMethod := r.OperationMethod
  , Status := r.Status
  , CancelledDetails := r.CancelledDetails
  , UserID := r.UserID
  , HostIPAddress := r.HostIPAddress
  , Source := r.Source
  , PrintFileName := r.PrintFileName
  , CreatedPages := r.CreatedPages.bind toNum
  , ExitPages := r.ExitPages.bind toNum
  , ExitPapers := r.ExitPapers.bind toNum
  , PaperSize := r.PaperSize
  , PaperType := r.PaperType
  , PrinterName := r.PrinterName }

/-- `df.dropna(subset=['LogID', 'PrinterName', 'StartDateTime'])`: a row
survives iff all three key cells are non-null. -/
def keepRow (r : NRow) : Bool :=
  r.LogID.isSome && r.PrinterName.isSome && r.StartDateTime.isSome

/-- Coerce every record, then drop the rows missing a key cell. -/
def normalizeBatch (toNum : String → Option Int) (toDT : String → Option Nat)
    (batch : List Row) : List NRow :=
  (batch.map (normRow toNum toDT)).filter keepRow

/-- The `ON` clause of the novelty query:
`st.LogID = mt.LogID AND st.PrinterName = mt.PrinterName AND
st.StartDateTime = mt.StartDateTime`. -/
def keyEq (a b : NRow) : Bool :=
  a.LogID == b.LogID && a.PrinterName == b.PrinterName && a.StartDateTime == b.StartDateTime

/-- The novelty query: staging rows whose composite key matches no main
row (`LEFT JOIN ... WHERE mt.LogID IS NULL`). -/
def novelRows (df main : List NRow) : List NRow :=
  df.filter (fun st => main.all (fun mt => !keyEq st mt))

/-- The store state: the main table's rows plus this run's staging
table (name and contents), `none` when that table does not exist. -/
structure DB where
  main : List NRow
  staging : Option (String × List NRow)
deriving DecidableEq

/-- Failure injection: which statement inside the `try` block raises.
`ok` is the run where no exception occurs; `atStaging`, `atQuery` and
`atAppend` make `df.to_sql` (staging), `pd.read_sql` (novelty query) and
the append `to_sql` raise respectively. -/
inductive FailStep where
  | ok
  | atStaging
  | atQuery
  | atAppend
deriving DecidableEq

/-- `DROP TABLE IF EXISTS staging_table` — the `finally` block. -/
def dropStaging (db : DB) : DB :=
  { db with staging := none }

/-- `process_and_insert_logs_via_staging(new_df, printer_name, db_engine,
main_table)` with an explicit failure-injection step and the wall-clock
value `t` feeding the staging-table name.  The result is the function's
return value (inserted count, or `-1` on a database error) together with
the store state after the `finally` cleanup.  On an exception the
transaction is rolled back, so the store reverts to its pre-transaction
state before the staging table is dropped. -/
def process_and_insert_logs_via_staging (toNum : String → Option Int)
    (toDT : String → Option Nat) (fail : FailStep) (t : Nat)
    (new_df : List Row) (printer_name : String) (db : DB) : Int × DB :=
  if new_df = [] then (0, db)
  else
    let staging_table :=
      "staging_" ++ chReplace '-' '_' (pyLower printer_name) ++ "_" ++ Nat.repr t
    let df := normalizeBatch toNum toDT new_df
    if df = [] then (0, db)
    else
      if fail = FailStep.atStaging then (-1, dropStaging db)
      else
        let db1 : DB := { db with staging := some (staging_table, df) }
        if fail = FailStep.atQuery then (-1, dropStaging db)
        else
          let new_rows := novelRows df db1.main
          if new_rows = [] then ((new_rows.length : Int), dropStaging db1)
          else if fail = FailStep.atAppend then (-1, dropStaging db)
          else ((new_rows.length : Int), dropStaging { db1 with main := db1.main ++ new_rows })

/-! ## Content deduplication (`compute_sha1` / `is_duplicate`)

A file is a filesystem identity (what `os.path.samefile` compares)
together with its byte content, `none` when the bytes cannot be read.
The cryptographic digest is abstracted as a function parameter `hash`:
streaming fixed-size blocks through `sha1.update` digests exactly the
whole content, so `compute_sha1` is `hash` applied to the full byte
list, and an unreadable file yields `None`. -/

/-- A directory entry: filesystem identity plus readable byte content. -/
structure FSFile where
  ident : Nat
  content : Option (List Nat)
deriving DecidableEq

/-- `compute_sha1(file_path)`: the digest of the file's whole content,
or `None` when reading fails. -/
def compute_sha1 {β : Type} (hash : List Nat → β) (f : FSFile) : Option β :=
  f.content.map hash

/-- `is_duplicate(new_file_path, log_directory)`: false when the
candidate's own digest cannot be computed; otherwise true iff some
directory entry other than the candidate itself (`os.path.samefile`)
has the same digest.  A `None` digest on a comparison target never
equals the candidate's digest, so that target is skipped. -/
def is_duplicate {β : Type} [DecidableEq β] (hash : List Nat → β)
    (new_file : FSFile) (log_directory : List FSFile) : Bool :=
  match compute_sha1 hash new_file with
  | none => false
  | some h =>
    log_directory.any (fun g =>
      !(g.ident == new_file.ident) && (compute_sha1 hash g == some h))

/-! ## Helper lemmas -/

theorem foldl_preserve {α β : Type} (P : β → Prop) (f : β → α → β)
    (h : ∀ b a, P b → P (f b a)) : ∀ (l : List α) (b : β), P b → P (l.foldl f b)
  | [], _, hb => hb
  | a :: l, b, hb => foldl_preserve P f h l (f b a) (h b a hb)

theorem foldl_preserve_mem {α β : Type} (P : β → Prop) (f : β → α → β) :
    ∀ (l : List α), (∀ b a, a ∈ l → P b → P (f b a)) → ∀ (b : β), P b → P (l.foldl f b)
  | [], _, _, hb => hb
  | a :: l, h, b, hb =>
    foldl_preserve_mem P f l (fun b a' ha' hb' => h b a' (List.mem_cons_of_mem _ ha') hb')
      (f b a) (h b a (List.mem_cons_self a l) hb)

theorem Dict.get_nil (k : String) : Dict.get [] k = none := rfl

theorem Dict.get_cons (p : String × String) (d : Dict) (k : String) :
    Dict.get (p :: d) k = if p.1 = k then some p.2 else d.get k := by
  by_cases h : p.1 = k
  · rw [if_pos h]
    unfold Dict.get
    rw [List.find?_cons_of_pos _ (by simp [h])]
    rfl
  · rw [if_neg h]
    unfold Dict.get
    rw [List.find?_cons_of_neg _ (by simp [h])]

theorem Dict.get_insert_self (d : Dict) (k v : String) :
    (d.insert k v).get k = some v := by
  induction d with
  | nil => simp [Dict.insert, Dict.get_cons, Dict.get_nil]
  | cons p rest ih =>
    by_cases h : p.1 = k
    · simp [Dict.insert, h, Dict.get_cons]
    · simp [Dict.insert, h, Dict.get_cons, ih]

theorem Dict.get_insert_ne (d : Dict) (k k' v : String) (h : k' ≠ k) :
    (d.insert k v).get k' = d.get k' := by
  induction d with
  | nil => simp [Dict.insert, Dict.get_cons, Dict.get_nil, Ne.symm h]
  | cons p rest ih =>
    by_cases hp : p.1 = k
    · simp [Dict.insert, hp, Dict.get_cons, Ne.symm h]
    · simp [Dict.insert, hp, Dict.get_cons, ih]

theorem Dict.insert_ne_nil (d : Dict) (k v : String) : d.insert k v ≠ [] := by
  cases d with
  | nil => simp [Dict.insert]
  | cons p rest => by_cases h : p.1 = k <;> simp [Dict.insert, h]

theorem Dict.mem_insert (d : Dict) (k v : String) :
    ∀ q ∈ d.insert k v, q.1 = k ∨ q ∈ d := by
  induction d with
  | nil => intro q hq; simp [Dict.insert] at hq; simp [hq]
  | cons p rest ih =>
    intro q hq
    by_cases h : p.1 = k
    · simp only [Dict.insert, beq_iff_eq, h, if_true, List.mem_cons] at hq
      rcases hq with rfl | hq
      · exact Or.inl rfl
      · exact Or.inr (List.mem_cons_of_mem _ hq)
    · simp only [Dict.insert, beq_iff_eq, h, if_false, List.mem_cons] at hq
      rcases hq with rfl | hq
      · exact Or.inr (List.mem_cons_self _ _)
      · rcases ih q hq with hk | hm
        · exact Or.inl hk
        · exact Or.inr (List.mem_cons_of_mem _ hm)

theorem Dict.get_eq_none (d : Dict) (k : String) (h : ∀ q ∈ d, q.1 ≠ k) :
    d.get k = none := by
  have : d.find? (fun p => p.1 == k) = none :=
    List.find?_eq_none.mpr (fun q hq => by simp [h q hq])
  simp [Dict.get, this]

theorem getD_mem : ∀ (l : List String) (i : Nat), i < l.length → l.getD i "" ∈ l
  | a :: l, 0, _ => List.mem_cons_self a l
  | a :: l, i + 1, h =>
    List.mem_cons_of_mem a (getD_mem l i (Nat.lt_of_succ_lt_succ h))

theorem dictOfZip_keys (header row : List String) :
    ∀ q ∈ dictOfZip header row, q.1 ∈ header := by
  unfold dictOfZip
  exact foldl_preserve_mem
    (fun d : Dict => ∀ q ∈ d, q.1 ∈ header)
    (fun d p => d.insert p.1 p.2)
    (header.zip row)
    (fun d a ha hd q hq => by
      rcases Dict.mem_insert d a.1 a.2 q hq with hk | hm
      · rcases a with ⟨a1, a2⟩
        exact hk ▸ (List.of_mem_zip ha).1
      · exact hd q hm)
    []
    (fun q hq => absurd hq (List.not_mem_nil q))

theorem dictOfZip_ne_nil (header row : List String) (hh : header ≠ []) (hr : row ≠ []) :
    dictOfZip header row ≠ [] := by
  cases header with
  | nil => exact absurd rfl hh
  | cons h hs =>
    cases row with
    | nil => exact absurd rfl hr
    | cons r rs =>
      unfold dictOfZip
      simp only [List.zip_cons_cons, List.foldl_cons]
      apply foldl_preserve (fun d : Dict => d ≠ []) _
        (fun d a hd => Dict.insert_ne_nil d a.1 a.2)
      exact Dict.insert_ne_nil [] h r

theorem mergeContinuation_ne_nil (header : List String) (cur : Dict) (row : List String)
    (hc : cur ≠ []) : mergeContinuation header cur row ≠ [] := by
  unfold mergeContinuation
  apply foldl_preserve (fun d : Dict => d ≠ []) _ _ _ _ hc
  intro d i hd
  split
  · exact Dict.insert_ne_nil _ _ _
  · exact hd

theorem mergeContinuation_keys (header : List String) (cur : Dict) (row : List String)
    (hc : ∀ q ∈ cur, q.1 ∈ header) :
    ∀ q ∈ mergeContinuation header cur row, q.1 ∈ header := by
  unfold mergeContinuation
  apply foldl_preserve_mem (fun d : Dict => ∀ q ∈ d, q.1 ∈ header) _ _ _ _ hc
  intro d i hi hd q hq
  split at hq
  · rcases Dict.mem_insert _ _ _ q hq with hk | hm
    · have hlt : i < header.length :=
        Nat.lt_of_lt_of_le (List.mem_range.mp hi) (Nat.min_le_left _ _)
      exact hk ▸ getD_mem header i hlt
    · exact hd q hm
  · exact hd q hq

theorem assembleEvents_keys (header : List String) (rows : List (List String)) :
    ∀ e ∈ assembleEvents header rows, ∀ q ∈ e, q.1 ∈ header := by
  unfold assembleEvents
  have hstate :
      (∀ e ∈ (rows.foldl (eventStep header) ([], [])).1, ∀ q ∈ e, q.1 ∈ header)
      ∧ (∀ q ∈ (rows.foldl (eventStep header) ([], [])).2, q.1 ∈ header) := by
    apply foldl_preserve
      (fun acc : List Dict × Dict =>
        (∀ e ∈ acc.1, ∀ q ∈ e, q.1 ∈ header) ∧ (∀ q ∈ acc.2, q.1 ∈ header))
    · intro acc row hacc
      unfold eventStep
      split
      · refine ⟨?_, dictOfZip_keys header row⟩
        intro e he
        rcases List.mem_append.mp he with hm | hm
        · exact hacc.1 e hm
        · split at hm
          · cases hm
          · rcases List.mem_singleton.mp hm with rfl
            exact hacc.2
      · split
        · exact hacc
        · exact ⟨hacc.1, mergeContinuation_keys header acc.2 row hacc.2⟩
    · exact ⟨fun e he => absurd he (List.not_mem_nil e), fun q hq => absurd hq (List.not_mem_nil q)⟩
  intro e he
  unfold finalizeEvents at he
  rcases List.mem_append.mp he with hm | hm
  · exact hstate.1 e hm
  · split at hm
    · cases hm
    · rcases List.mem_singleton.mp hm with rfl
      exact hstate.2

theorem isStart_row_ne_nil (row : List String) (h : isStart row = true) : row ≠ [] := by
  intro hrow
  subst hrow
  simp [isStart] at h

theorem assembleEvents_fold_length (header : List String) (hh : header ≠ []) :
    ∀ (rows : List (List String)) (events : List Dict) (cur : Dict),
      (finalizeEvents (rows.foldl (eventStep header) (events, cur))).length
        = events.length + (if cur = [] then 0 else 1) + (rows.filter isStart).length := by
  intro rows
  induction rows with
  | nil =>
    intro events cur
    unfold finalizeEvents
    by_cases hc : cur = [] <;> simp [hc]
  | cons r rows ih =>
    intro events cur
    by_cases hs : isStart r
    · have hcur' : dictOfZip header r ≠ [] :=
        dictOfZip_ne_nil header r hh (isStart_row_ne_nil r hs)
      simp only [List.foldl_cons, eventStep, hs, if_true, List.filter_cons_of_pos]
      rw [ih]
      simp only [hcur', if_neg hcur', List.length_append]
      by_cases hc : cur = [] <;> simp [hc] <;> omega
    · have hs' : isStart r = false := Bool.eq_false_iff.mpr hs
      simp only [List.foldl_cons, eventStep, hs, if_false, List.filter_cons, hs',
        Bool.false_eq_true]
      by_cases hc : cur = []
      · simp only [hc, if_true]
        rw [ih]
        simp [hc]
      · have hmc : mergeContinuation header cur r ≠ [] :=
          mergeContinuation_ne_nil header cur r hc
        simp only [if_neg hc]
        rw [ih]
        simp [hc, hmc]

theorem normalizeBatch_nil (toNum : String → Option Int) (toDT : String → Option Nat) :
    normalizeBatch toNum toDT [] = [] := rfl

theorem novelRows_nil (main : List NRow) : novelRows [] main = [] := rfl

theorem keyEq_self (r : NRow) : keyEq r r = true := by
  simp [keyEq]

theorem novelRows_keep (toNum : String → Option Int) (toDT : String → Option Nat)
    (batch : List Row) (main : List NRow) :
    ∀ r ∈ novelRows (normalizeBatch toNum toDT batch) main, keepRow r = true := by
  intro r hr
  have hdf : r ∈ normalizeBatch toNum toDT batch := (List.mem_filter.mp hr).1
  exact (List.mem_filter.mp hdf).2

theorem novelRows_after_append (df main : List NRow) :
    novelRows df (main ++ novelRows df main) = [] := by
  unfold novelRows
  rw [List.filter_eq_nil_iff]
  intro st hst hall
  rw [List.all_eq_true] at hall
  by_cases h : main.all (fun mt => !keyEq st mt) = true
  · have hstnr : st ∈ List.filter (fun st => main.all (fun mt => !keyEq st mt)) df :=
      List.mem_filter.mpr ⟨hst, h⟩
    have := hall st (List.mem_append_right _ hstnr)
    simp [keyEq_self] at this
  · rw [List.all_eq_true] at h
    push_neg at h
    obtain ⟨mt, hmt, hk⟩ := h
    exact hk (hall mt (List.mem_append_left _ hmt))

theorem merge_ok_eq (toNum : String → Option Int) (toDT : String → Option Nat)
    (t : Nat) (batch : List Row) (printer_name : String) (db : DB)
    (hdf : normalizeBatch toNum toDT batch ≠ []) :
    process_and_insert_logs_via_staging toNum toDT FailStep.ok t batch printer_name db
      = (((novelRows (normalizeBatch toNum toDT batch) db.main).length : Int),
         { main := db.main ++ novelRows (normalizeBatch toNum toDT batch) db.main,
           staging := none }) := by
  have hb : batch ≠ [] := by
    intro h
    exact hdf (h ▸ normalizeBatch_nil toNum toDT)
  unfold process_and_insert_logs_via_staging
  rw [if_neg hb]
  simp only [if_neg hdf]
  by_cases hnr : novelRows (normalizeBatch toNum toDT batch) db.main = []
  · simp [hnr, dropStaging]
  · simp [hnr, dropStaging]

theorem merge_fail_eq (toNum : String → Option Int) (toDT : String → Option Nat)
    (t : Nat) (batch : List Row) (printer_name : String) (db : DB) (fail : FailStep)
    (hdf : normalizeBatch toNum toDT batch ≠ [])
    (hfail : fail = FailStep.atStaging ∨ fail = FailStep.atQuery ∨
      (fail = FailStep.atAppend ∧ novelRows (normalizeBatch toNum toDT batch) db.main ≠ [])) :
    process_and_insert_logs_via_staging toNum toDT fail t batch printer_name db
      = (-1, dropStaging db) := by
  have hb : batch ≠ [] := by
    intro h
    exact hdf (h ▸ normalizeBatch_nil toNum toDT)
  unfold process_and_insert_logs_via_staging
  rw [if_neg hb]
  simp only [if_neg hdf]
  rcases hfail with rfl | rfl | ⟨rfl, hnr⟩
  · simp
  · simp
  · simp [hnr]

theorem merge_staging_none (toNum : String → Option Int) (toDT : String → Option Nat)
    (fail : FailStep) (t : Nat) (batch : List Row) (printer_name : String) (db : DB)
    (hdf : normalizeBatch toNum toDT batch ≠ []) :
    (process_and_insert_logs_via_staging toNum toDT fail t batch printer_name db).2.staging
      = none := by
  have hb : batch ≠ [] := by
    intro h
    exact hdf (h ▸ normalizeBatch_nil toNum toDT)
  unfold process_and_insert_logs_via_staging
  rw [if_neg hb]
  simp only [if_neg hdf]
  cases fail <;> simp [dropStaging] <;> split <;> simp [dropStaging]

theorem merge_main_cases (toNum : String → Option Int) (toDT : String → Option Nat)
    (fail : FailStep) (t : Nat) (batch : List Row) (printer_name : String) (db : DB) :
    (process_and_insert_logs_via_staging toNum toDT fail t batch printer_name db).2.main = db.main
    ∨ (process_and_insert_logs_via_staging toNum toDT fail t batch printer_name db).2.main
        = db.main ++ novelRows (normalizeBatch toNum toDT batch) db.main := by
  simp only [process_and_insert_logs_via_staging]
  split_ifs <;> simp [dropStaging]

/-! ## Sample inputs used by the witnesses -/

def sampleRow : Row :=
  { LogID := some "100", StartDateTime := some "2024/01/01 09:00", EndDateTime := none
  , LogType := none, Result := none, OperationMethod := none, Status := none
  , CancelledDetails := none, UserID := none, HostIPAddress := none, Source := none
  , PrintFileName := none, CreatedPages := some "3", ExitPages := none, ExitPapers := none
  , PaperSize := none, PaperType := none, PrinterName := some "RICOH-1" }

def toNumSample : String → Option Int := fun _ => some 7

def toDTSample : String → Option Nat := fun _ => some 1

def toDTNone : String → Option Nat := fun _ => none

/-! ## The claims -/

/-- Claim C1: merging the same normalized batch twice against the same store is
idempotent.  For every batch whose records still carry identifier, printer tag and
start timestamp after normalization, the first failure-free merge returns the
count n ≥ 0 of rows whose composite key is not yet in the main table and appends
exactly those n rows, and an immediately repeated merge of the same batch returns
count 0 (NoNewRecords) and leaves the main table's row set unchanged. -/
theorem merge_idempotent_C1 (toNum : String → Option Int) (toDT : String → Option Nat)
    (t1 t2 : Nat) (batch : List Row) (printer_name : String) (db : DB)
    (hkeys : ∀ r ∈ batch, keepRow (normRow toNum toDT r) = true) :
    0 ≤ (process_and_insert_logs_via_staging toNum toDT FailStep.ok t1 batch printer_name db).1
    ∧ (process_and_insert_logs_via_staging toNum toDT FailStep.ok t1 batch printer_name db).1
        = ((novelRows (normalizeBatch toNum toDT batch) db.main).length : Int)
    ∧ (process_and_insert_logs_via_staging toNum toDT FailStep.ok t1 batch printer_name db).2.main
        = db.main ++ novelRows (normalizeBatch toNum toDT batch) db.main
    ∧ (process_and_insert_logs_via_staging toNum toDT FailStep.ok t2 batch printer_name
        (process_and_insert_logs_via_staging toNum toDT FailStep.ok t1 batch printer_name db).2).1
        = 0
    ∧ (process_and_insert_logs_via_staging toNum toDT FailStep.ok t2 batch printer_name
        (process_and_insert_logs_via_staging toNum toDT FailStep.ok t1 batch printer_name db).2).2.main
      = (process_and_insert_logs_via_staging toNum toDT FailStep.ok t1 batch printer_name db).2.main := by
  by_cases hb : batch = []
  · subst hb
    simp [process_and_insert_logs_via_staging, normalizeBatch, novelRows]
  · have hall : normalizeBatch toNum toDT batch = batch.map (normRow toNum toDT) := by
      unfold normalizeBatch
      apply List.filter_eq_self.mpr
      intro a ha
      obtain ⟨r, hr, rfl⟩ := List.mem_map.mp ha
      exact hkeys r hr
    have hdf : normalizeBatch toNum toDT batch ≠ [] := by
      rw [hall]
      intro hcontr
      exact hb (by simpa using hcontr)
    have h1 := merge_ok_eq toNum toDT t1 batch printer_name db hdf
    have h2 := merge_ok_eq toNum toDT t2 batch printer_name
      { main := db.main ++ novelRows (normalizeBatch toNum toDT batch) db.main,
        staging := none } hdf
    rw [h1]
    refine ⟨Int.natCast_nonneg _, rfl, rfl, ?_, ?_⟩
    · rw [h2]
      simp [novelRows_after_append]
    · rw [h2]
      simp [novelRows_after_append]

/-- Witness for C1: a one-record batch merged twice into an empty store. -/
theorem merge_idempotent_C1_witness :
    0 ≤ (process_and_insert_logs_via_staging toNumSample toDTSample FailStep.ok 11
          [sampleRow] "RICOH-1" ⟨[], none⟩).1
    ∧ (process_and_insert_logs_via_staging toNumSample toDTSample FailStep.ok 22
        [sampleRow] "RICOH-1"
        (process_and_insert_logs_via_staging toNumSample toDTSample FailStep.ok 11
          [sampleRow] "RICOH-1" ⟨[], none⟩).2).1 = 0 := by
  have h := merge_idempotent_C1 toNumSample toDTSample 11 22 [sampleRow] "RICOH-1"
    ⟨[], none⟩ (by decide)
  exact ⟨h.1, h.2.2.2.1⟩

/-- Claim C2: the merge is atomic and self-cleaning.  Once the normalized batch
is non-empty (the transaction is entered), a failure injected at the staging
step, the novelty query, or a non-trivial append makes the call return the error
code -1 with the main table exactly as before (full rollback), and whatever the
failure step — or none — the staging table no longer exists afterwards. -/
theorem merge_atomic_C2 (toNum : String → Option Int) (toDT : String → Option Nat)
    (t : Nat) (batch : List Row) (printer_name : String) (db : DB)
    (hdf : normalizeBatch toNum toDT batch ≠ []) :
    (∀ fail : FailStep,
        fail = FailStep.atStaging ∨ fail = FailStep.atQuery ∨
          (fail = FailStep.atAppend ∧
            novelRows (normalizeBatch toNum toDT batch) db.main ≠ []) →
        (process_and_insert_logs_via_staging toNum toDT fail t batch printer_name db).1 = -1
        ∧ (process_and_insert_logs_via_staging toNum toDT fail t batch printer_name db).2.main
            = db.main
        ∧ (process_and_insert_logs_via_staging toNum toDT fail t batch printer_name db).2.staging
            = none)
    ∧ (∀ fail : FailStep,
        (process_and_insert_logs_via_staging toNum toDT fail t batch printer_name db).2.staging
          = none) := by
  constructor
  · intro fail hfail
    rw [merge_fail_eq toNum toDT t batch printer_name db fail hdf hfail]
    exact ⟨rfl, rfl, rfl⟩
  · intro fail
    exact merge_staging_none toNum toDT fail t batch printer_name db hdf

/-- Witness for C2: a failure injected at the append step on an empty store
rolls everything back and drops the staging table. -/
theorem merge_atomic_C2_witness :
    (process_and_insert_logs_via_staging toNumSample toDTSample FailStep.atAppend 11
        [sampleRow] "RICOH-1" ⟨[], none⟩).1 = -1
    ∧ (process_and_insert_logs_via_staging toNumSample toDTSample FailStep.atAppend 11
        [sampleRow] "RICOH-1" ⟨[], none⟩).2.main = []
    ∧ (process_and_insert_logs_via_staging toNumSample toDTSample FailStep.atAppend 11
        [sampleRow] "RICOH-1" ⟨[], none⟩).2.staging = none := by
  exact (merge_atomic_C2 toNumSample toDTSample 11 [sampleRow] "RICOH-1" ⟨[], none⟩
      (by decide)).1
    FailStep.atAppend (Or.inr (Or.inr ⟨rfl, by decide⟩))

/-- Claim C7: storage eligibility.  Whatever happens inside the transaction, the
main table only ever grows by rows whose identifier, printer tag and start
timestamp are all non-null (records missing one of them were dropped by the
normalization before the novelty check), and a batch that is empty after
normalization returns count 0 without touching the store at all. -/
theorem merge_eligibility_C7 (toNum : String → Option Int) (toDT : String → Option Nat)
    (fail : FailStep) (t : Nat) (batch : List Row) (printer_name : String) (db : DB) :
    (∃ appended : List NRow,
        (process_and_insert_logs_via_staging toNum toDT fail t batch printer_name db).2.main
          = db.main ++ appended
        ∧ ∀ r ∈ appended,
            r.LogID.isSome = true ∧ r.PrinterName.isSome = true
              ∧ r.StartDateTime.isSome = true)
    ∧ (normalizeBatch toNum toDT batch = [] →
        (process_and_insert_logs_via_staging toNum toDT fail t batch printer_name db).1 = 0
        ∧ (process_and_insert_logs_via_staging toNum toDT fail t batch printer_name db).2
            = db) := by
  constructor
  · rcases merge_main_cases toNum toDT fail t batch printer_name db with hmain | hmain
    · exact ⟨[], by simp [hmain], fun r hr => absurd hr (List.not_mem_nil r)⟩
    · refine ⟨novelRows (normalizeBatch toNum toDT batch) db.main, hmain, ?_⟩
      intro r hr
      have h := novelRows_keep toNum toDT batch db.main r hr
      unfold keepRow at h
      simp only [Bool.and_eq_true] at h
      exact ⟨h.1.1, h.1.2, h.2⟩
  · intro hdf
    by_cases hb : batch = []
    · subst hb
      simp [process_and_insert_logs_via_staging]
    · constructor <;> simp [process_and_insert_logs_via_staging, hb, hdf]

/-- Witness for C7: a batch whose only record loses its start timestamp during
coercion normalizes to empty, and the merge returns 0 leaving the store as is. -/
theorem merge_eligibility_C7_witness :
    (process_and_insert_logs_via_staging toNumSample toDTNone FailStep.ok 11
        [sampleRow] "RICOH-1" ⟨[], none⟩).1 = 0
    ∧ (process_and_insert_logs_via_staging toNumSample toDTNone FailStep.ok 11
        [sampleRow] "RICOH-1" ⟨[], none⟩).2 = ⟨[], none⟩ :=
  (merge_eligibility_C7 toNumSample toDTNone FailStep.ok 11 [sampleRow] "RICOH-1"
    ⟨[], none⟩).2 (by decide)

/-- Claim C3 (counterexample): it is not true that a parsed data row starts a
new logical event exactly when its first column is non-empty.  The single-field
row `["y"]` has a non-empty first column, yet after a start row it does not open
a second event (the batch still holds one event), because the code also requires
the row to have more than one field; widening the same row to two fields does
start a second event. -/
theorem event_start_C3_counterexample :
    (["y"] : List String).getD 0 "" ≠ ""
    ∧ (assembleEvents ["A", "B"] [["x", "1"], ["y"]]).length = 1
    ∧ (assembleEvents ["A", "B"] [["x", "1"], ["y", "2"]]).length = 2 := by decide

/-- Claim C3 (amended): a parsed data row starts a new logical event iff it has
more than one field and its first field is non-empty (`isStart`); all other rows
are continuation rows that never open or close an event, and the event being
assembled at end of input is flushed, so with a non-empty header the batch holds
exactly one event per start row — one logical event split across several
physical rows yields exactly one record. -/
theorem event_start_count_C3 (header : List String) (rows : List (List String))
    (hh : header ≠ []) :
    (assembleEvents header rows).length = (rows.filter isStart).length := by
  unfold assembleEvents
  rw [assembleEvents_fold_length header hh rows [] []]
  simp

/-- Witness for C3 (amended): two start rows and one continuation row yield
exactly two events. -/
theorem event_start_count_C3_witness :
    (assembleEvents ["A", "B"] [["x", "1"], ["", "2"], ["y", "3"]]).length
      = (List.filter isStart [["x", "1"], ["", "2"], ["y", "3"]]).length :=
  event_start_count_C3 ["A", "B"] [["x", "1"], ["", "2"], ["y", "3"]] (by decide)

/-- Claim C4: continuation merging is first-non-empty-wins.  If the event under
assembly already holds a non-empty value for a column name, merging any
continuation row leaves that value untouched — later continuation data for an
already-filled field is discarded (a continuation cell is only taken when the
event holds no non-empty value for that column). -/
theorem mergeContinuation_first_wins_C4 (header : List String) (cur : Dict)
    (row : List String) (k v : String) (hv : cur.get k = some v) (hne : v ≠ "") :
    (mergeContinuation header cur row).get k = some v := by
  unfold mergeContinuation
  exact foldl_preserve (fun d : Dict => d.get k = some v)
    (fun d i =>
      if row.getD i "" ≠ "" ∧ (d.get (header.getD i "")).getD "" = "" then
        d.insert (header.getD i "") (row.getD i "")
      else d)
    (fun d i hd => by
      dsimp only
      by_cases hcond : row.getD i "" ≠ "" ∧ (d.get (header.getD i "")).getD "" = ""
      · rw [if_pos hcond]
        by_cases hk : header.getD i "" = k
        · exfalso
          rw [hk, hd] at hcond
          exact hne hcond.2
        · rw [Dict.get_insert_ne _ _ _ _ (fun h => hk h.symm)]
          exact hd
      · rw [if_neg hcond]
        exact hd)
    (List.range (min header.length row.length)) cur hv

/-- Witness for C4: the filled value "x" survives a continuation row offering "y". -/
theorem mergeContinuation_first_wins_C4_witness :
    (mergeContinuation ["A"] [("A", "x")] ["y"]).get "A" = some "x" :=
  mergeContinuation_first_wins_C4 ["A"] [("A", "x")] ["y"] "A" "x" (by decide) (by decide)

/-- Claim C5 (counterexample): header-name matching is not
case/whitespace-normalized for every canonical field.  The header column
`"Log ID "` differs from the canonical raw name `"Log ID"` only by trailing
whitespace, yet the record's LogID field stays null — the cell value "100" is
not resolved to it. -/
theorem header_matching_C5_counterexample :
    (parse_and_clean_ricoh_log
        "Start Date/Time,Log ID ,Result\n2024/01/01 09:00,100,OK" "P").map Row.LogID
      = [none] := by decide

/-- Claim C5 (amended): header matching is exact on the hard-coded raw names of
`rename_map`, of which only `"Status "` carries trailing whitespace (and
resolves to the Status field); a column name differing from a canonical raw
name — even only by trailing whitespace — does not resolve; and any canonical
field whose raw name is absent from the parsed header is null for every record
of the batch. -/
theorem header_matching_C5 :
    (∀ (raw : String) (getter : Row → Option String), (raw, getter) ∈ renamePairs →
      ∀ (header : List String) (rows : List (List String)) (printer_name : String),
        raw ∉ header →
        ∀ r ∈ (assembleEvents header rows).map (cleanEvent printer_name),
          getter r = none)
    ∧ (parse_and_clean_ricoh_log
        "Start Date/Time,Status ,Result\n2024/01/01 09:00,Done,OK" "P").map Row.Status
      = [some "Done"]
    ∧ (parse_and_clean_ricoh_log
        "Start Date/Time,Log ID ,Result\n2024/01/01 09:00,100,OK" "P").map Row.LogID
      = [none] := by
  refine ⟨?_, by decide, by decide⟩
  intro raw getter hmem header rows printer_name hraw r hr
  obtain ⟨e, he, rfl⟩ := List.mem_map.mp hr
  have hkeys := assembleEvents_keys header rows e he
  have hget : Dict.get e raw = none := by
    apply Dict.get_eq_none
    intro q hq hqe
    exact hraw (hqe ▸ hkeys q hq)
  simp only [renamePairs] at hmem
  repeat
    rcases List.mem_cons.mp hmem with heq | hmem
    · injection heq with h1 h2
      subst h1
      subst h2
      exact hget
  exact absurd hmem (List.not_mem_nil _)

/-- Witness for C5 (amended): with header `["A", "B"]` the raw name "Log ID" is
absent, so the single assembled record's LogID is null. -/
theorem header_matching_C5_witness :
    Row.LogID (cleanEvent "P" (dictOfZip ["A", "B"] ["x", "y"])) = none :=
  header_matching_C5.1 "Log ID" Row.LogID (List.Mem.head _) ["A", "B"] [["x", "y"]] "P"
    (by decide) (cleanEvent "P" (dictOfZip ["A", "B"] ["x", "y"])) (by decide)

/-- Claim C6: for every input text in which the header marker line cannot be
found, or in which the cleaned region yields no CSV rows at all, or yields only
the header row with no data rows after it, the parser returns the empty batch —
it is a total function, so no error is raised. -/
theorem parse_empty_C6 (text printer_name : String) :
    (markerIdx (splitLines text) = none →
      parse_and_clean_ricoh_log text printer_name = [])
    ∧ (∀ i : Nat, markerIdx (splitLines text) = some i →
        csvParse (joinLines (csvLines (splitLines text) i)) = [] →
        parse_and_clean_ricoh_log text printer_name = [])
    ∧ (∀ (i : Nat) (header : List String), markerIdx (splitLines text) = some i →
        csvParse (joinLines (csvLines (splitLines text) i)) = [header] →
        parse_and_clean_ricoh_log text printer_name = []) := by
  refine ⟨fun h => ?_, fun i hi hcsv => ?_, fun i header hi hcsv => ?_⟩
  · simp only [parse_and_clean_ricoh_log]
    rw [h]
  · have hstep : parse_and_clean_ricoh_log text printer_name
        = (match csvParse (joinLines (csvLines (splitLines text) i)) with
           | [] => []
           | header :: rows => (assembleEvents header rows).map (cleanEvent printer_name)) := by
      simp only [parse_and_clean_ricoh_log]
      rw [hi]
    rw [hstep, hcsv]
  · have hstep : parse_and_clean_ricoh_log text printer_name
        = (match csvParse (joinLines (csvLines (splitLines text) i)) with
           | [] => []
           | header :: rows => (assembleEvents header rows).map (cleanEvent printer_name)) := by
      simp only [parse_and_clean_ricoh_log]
      rw [hi]
    rw [hstep, hcsv]
    simp [assembleEvents, finalizeEvents]

/-- Witness for C6: a markerless text, and a text whose marker line is the sole
row (a header with no data rows), both parse to the empty batch. -/
theorem parse_empty_C6_witness :
    parse_and_clean_ricoh_log "hello\nworld" "P" = []
    ∧ parse_and_clean_ricoh_log "Start Date/Time,Log ID" "P" = [] := by
  constructor
  · exact (parse_empty_C6 "hello\nworld" "P").1 (by decide)
  · exact (parse_empty_C6 "Start Date/Time,Log ID" "P").2.2 0
      ["Start Date/Time", "Log ID"] (by decide) (by decide)

/-- Claim C8: duplicate detection is exact content equality (given an injective
digest).  `is_duplicate` is true iff some file of the directory other than the
candidate itself (by filesystem identity) has byte-for-byte the candidate's
readable content — so changing the content breaks any such match — and an
unreadable comparison target contributes nothing to the scan: prepending it to
the directory leaves the verdict unchanged. -/
theorem is_duplicate_C8 {β : Type} [DecidableEq β] (hash : List Nat → β)
    (hinj : Function.Injective hash) (f : FSFile) (dir : List FSFile) :
    (is_duplicate hash f dir = true ↔
      ∃ c, f.content = some c ∧ ∃ g ∈ dir, g.ident ≠ f.ident ∧ g.content = some c)
    ∧ (∀ g : FSFile, g.content = none →
        is_duplicate hash f (g :: dir) = is_duplicate hash f dir) := by
  constructor
  · cases hc : f.content with
    | none => simp [is_duplicate, compute_sha1, hc]
    | some c =>
      simp only [is_duplicate, compute_sha1, hc, Option.map_some', List.any_eq_true,
        Bool.and_eq_true, Bool.not_eq_true', beq_eq_false_iff_ne, ne_eq, beq_iff_eq]
      constructor
      · rintro ⟨g, hg, hid, hmap⟩
        rcases Option.map_eq_some'.mp hmap with ⟨c2, hc2, hhash⟩
        exact ⟨c, rfl, g, hg, hid, hinj hhash ▸ hc2⟩
      · rintro ⟨c2, hc2, g, hg, hid, hgc⟩
        obtain rfl : c2 = c := (Option.some.inj hc2).symm
        exact ⟨g, hg, hid, by rw [hgc]; rfl⟩
  · intro g hg
    cases hc : f.content with
    | none => simp [is_duplicate, compute_sha1, hc]
    | some c => simp [is_duplicate, compute_sha1, hc, hg]

/-- Witness for C8 (with the injective digest `id`): a directory holding an
unreadable file and a distinct file with identical bytes makes the candidate a
duplicate. -/
theorem is_duplicate_C8_witness :
    is_duplicate (fun l => l) ⟨0, some [1, 2, 3]⟩ [⟨5, none⟩, ⟨1, some [1, 2, 3]⟩]
      = true :=
  (is_duplicate_C8 (fun l => l) (fun _ _ h => h) ⟨0, some [1, 2, 3]⟩
      [⟨5, none⟩, ⟨1, some [1, 2, 3]⟩]).1.mpr
    ⟨[1, 2, 3], rfl, ⟨1, some [1, 2, 3]⟩, by decide, by decide, rfl⟩

/-- Claim C10: a candidate whose own content digest cannot be computed is never
reported as a duplicate — for every directory whatsoever, `is_duplicate`
returns false (novel, no error), independently of the directory's files. -/
theorem is_duplicate_unreadable_C10 {β : Type} [DecidableEq β] (hash : List Nat → β)
    (f : FSFile) (dir : List FSFile) (hf : f.content = none) :
    is_duplicate hash f dir = false := by
  simp [is_duplicate, compute_sha1, hf]

/-- Witness for C10: an unreadable candidate against a non-empty directory. -/
theorem is_duplicate_unreadable_C10_witness :
    is_duplicate (fun l => l) ⟨0, none⟩ [⟨1, some [1, 2]⟩, ⟨2, none⟩] = false :=
  is_duplicate_unreadable_C10 (fun l => l) ⟨0, none⟩ [⟨1, some [1, 2]⟩, ⟨2, none⟩] rfl

/-- Claim C9 (counterexample): with the scenario taken literally — a header
marker line, then a separate header row starting with `LogID`, one full data
row with LogID 100, and a "download completed" footer — the parser does NOT
yield one record with LogID 100: the marker line itself is consumed as the CSV
header, the intended header row becomes a data row, and the batch holds two
records whose LogID field is null. -/
theorem parse_scenario_C9_counterexample :
    (parse_and_clean_ricoh_log
        "Start Date/Time\nLogID,Start Date/Time,End Date/Time\n100,2024/01/01 09:00,2024/01/01 09:05\ndownload completed"
        "P").length = 2
    ∧ (parse_and_clean_ricoh_log
        "Start Date/Time\nLogID,Start Date/Time,End Date/Time\n100,2024/01/01 09:00,2024/01/01 09:05\ndownload completed"
        "P").map Row.LogID = [none, none] := by decide

/-- Claim C9 (amended): the marker line is itself the column header row.  For an
export whose header row starts with the marker phrase and carries the raw
`Log ID` column, followed by one full data row with Log ID 100 and a trailing
"download completed" footer line, the parser yields exactly one record, that
record's LogID is "100", and the footer contributes nothing. -/
theorem parse_scenario_C9 :
    parse_and_clean_ricoh_log
        "Start Date/Time,Log ID,End Date/Time\n2024/01/01 09:00,100,2024/01/01 09:05\nDownload completed"
        "P"
      = [{ LogID := some "100", StartDateTime := some "2024/01/01 09:00"
         , EndDateTime := some "2024/01/01 09:05", LogType := none, Result := none
         , OperationMethod := none, Status := none, CancelledDetails := none
         , UserID := none, HostIPAddress := none, Source := none, PrintFileName := none
         , CreatedPages := none, ExitPages := none, ExitPapers := none, PaperSize := none
         , PaperType := none, PrinterName := some "P" }] := by decide

end RicohLog
